import Mathlib

/-!
Verification development for the GTP dispatcher and exact alpha-beta solver of
`gtp_connection.py` (NoGo2).  The dispatcher, the solver and every command
handler touched by the claims are embedded shallowly below, translated line by
line from `src/A2'/NoGo2/gtp_connection.py`.  The Board and MoveCodec/Rules
components live in `board.py` / `board_util.py`, which are not part of the
sources; following the specification they are treated as an external interface:
an abstract `Rules` record of functions, plus a `Board.move` model taken from
the spec's interface description.  Python exceptions are modelled with
`Except`/an explicit exception outcome, mutation with explicit state passing,
wall-clock sampling with an oracle `clock : Nat -> Int` indexed by the number of
samples taken so far, and recursion depth with fuel (exhausted fuel plays the
role of Python's RecursionError).
-/

namespace NoGo

/-- Cell states of the board grid (EMPTY, BLACK, WHITE, BORDER in
`board_util.py`). -/
inductive Cell where
  | empty
  | black
  | white
  | border
deriving DecidableEq, Repr

/-- Stone colors (BLACK = 1, WHITE = 2 in `board_util.py`). -/
inductive Color where
  | black
  | white
deriving DecidableEq, Repr

/-- `GoBoardUtil.opponent`: swaps BLACK and WHITE. -/
def opponent : Color → Color
  | .black => .white
  | .white => .black

/-- The cell occupied by a stone of the given color. -/
def Color.cell : Color → Cell
  | .black => .black
  | .white => .white

/-- The color tokens used by `solve_cmd`'s `stone = ['', 'b', 'w']` list:
`stone[BLACK] = 'b'`, `stone[WHITE] = 'w'`. -/
def colorToken : Color → String
  | .black => "b"
  | .white => "w"

/-- The Board position: a one-dimensional grid of cells indexed by integer
points (`state.board` is a 1-D array in the Python code), the side to move and
the board size. -/
structure Bd where
  size : Nat
  grid : List Cell
  to_play : Color
deriving DecidableEq, Repr

/-- The mutable state of the `GtpConnection` object that the claims touch:
the board, the stored time limit, and the solver scratch state
(`self.notdone`, `self.winMoves`, `self.genCall`).  `tick` counts how many
wall-clock samples have been taken by the current search; it indexes the clock
oracle (it stands for `self.starttime` plus the sequence of
`time.process_time()` calls). -/
structure Conn where
  board : Bd
  timelimit : Int
  notdone : Bool
  winMoves : List String
  genCall : Bool
  tick : Nat
deriving DecidableEq, Repr

/-- Modelled from the spec: the external Board / MoveCodec/Rules interface
(`board.py` and `board_util.py` are not under the given sources).  Each field
is one external operation the dispatcher or solver calls; fallible operations
(`move_to_coord`, `color_to_int`, ...) return `Except String` where the Python
function may raise, carrying the exception detail string. -/
structure Rules where
  /-- `board.get_winner()`. -/
  getWinner : Bd → Option Color
  /-- `board.staticallyEvaluateForToPlay()`. -/
  staticEval : Bd → Int
  /-- `GoBoardUtil.generate_legal_moves(board, color)`: space-joined move
  strings (empty string when there is no legal move). -/
  genMoves : Bd → Color → Except String String
  /-- `GoBoardUtil.move_to_coord(str, boardsize)`: raises on a malformed
  coordinate; `ok none` models a falsy result (the PASS sentinel). -/
  moveToCoord : Nat → String → Except String (Option (Nat × Nat))
  /-- `board._coord_to_point(row, col)`. -/
  coordToPoint : Nat → Nat × Nat → Nat
  /-- `board._point_to_coord(point)`. -/
  pointToCoord : Nat → Nat → Nat × Nat
  /-- `GoBoardUtil.format_point(coord)`. -/
  formatPoint : Nat × Nat → String
  /-- `GoBoardUtil.color_to_int(str)`: raises on tokens other than
  the color tokens. -/
  colorToInt : String → Except String Color
  /-- `GoBoardUtil.generate_random_move(board, color)`; `ok none` models a
  falsy/None result. -/
  randomMove : Bd → Color → Except String (Option Nat)
  /-- The Board's legality predicate for a move of the given color at the
  given point. -/
  legal : Bd → Nat → Color → Bool
  /-- The detail string of the exception `board.move` raises on an illegal
  move. -/
  illegalDetail : Bd → Nat → Color → String
  /-- `board.check_legal(point, color)`. -/
  checkLegal : Bd → Nat → Color → Bool

/-- Modelled from the spec: `board.move(point, color)` — applying a legal move
places the stone on the (empty) point and flips `to_play` to the opponent of
the moving color ("`to_play` alternates strictly after every accepted move");
an illegal move raises an exception whose detail the dispatcher formats into
the `illegal move: ...` response ("on illegal move respond
`illegal move: <color> <move> <detail>`"), leaving the position unchanged. -/
def bmove (R : Rules) (b : Bd) (p : Nat) (c : Color) : Except String (Bd × Bool) :=
  if R.legal b p c then
    .ok ({ b with grid := b.grid.set p c.cell, to_play := opponent c }, true)
  else
    .error (R.illegalDetail b p c)

/-- The in-place undo performed by the solver (`gtp_connection.py` lines
458-459 and 462-463): `state.board[point] = EMPTY` followed by
`state.to_play = GoBoardUtil.opponent(state.to_play)`. -/
def undo (b : Bd) (p : Nat) : Bd :=
  { b with grid := b.grid.set p Cell.empty, to_play := opponent b.to_play }

/-- The solver's move decoding (`gtp_connection.py` lines 451-452):
`point = GoBoardUtil.move_to_coord(m, state.size)` followed by
`point = state._coord_to_point(point[0], point[1])`.  A falsy result of
`move_to_coord` makes the subscript/unpacking raise, modelled as an error. -/
def decodePoint (R : Rules) (size : Nat) (m : String) : Except String Nat :=
  match R.moveToCoord size m with
  | .error e => .error e
  | .ok none => .error "cannot unpack non-sequence"
  | .ok (some rc) => .ok (R.coordToPoint size rc)

/-- Python's `str.split(' ')` on a list of characters: split at every single
space, keeping empty fields (so the empty string yields `[""]`). -/
def splitSpAux : List Char → List Char → List String
  | [], cur => [String.mk cur.reverse]
  | c :: cs, cur =>
    if c = ' ' then String.mk cur.reverse :: splitSpAux cs []
    else splitSpAux cs (c :: cur)

/-- Python's `str.split(' ')` (used on the legal-move enumeration string at
line 450). -/
def pySplitSpace (s : String) : List String :=
  splitSpAux s.toList []

/-- Python's `str.lower()` (ASCII). -/
def lowerStr (s : String) : String :=
  String.mk (s.toList.map Char.toLower)

/-- Successful GTP response framing (`respond`, line 165):
`'= {}\n\n'.format(response)`. -/
def fmtRespond (s : String) : String := "= " ++ s ++ "\n\n"

/-- Failure GTP response framing (`error`, line 161):
`'? {}\n\n'.format(error_msg)`. -/
def fmtError (s : String) : String := "? " ++ s ++ "\n\n"

/-- Result of one `alphabeta` frame: a returned integer value, the abort
sentinel `'a'` (returned when the time limit fired or a root winning move
exists), or an exception escaping the frame. -/
inductive ABr where
  | val (v : Int)
  | abort
  | exc (msg : String)
deriving DecidableEq, Repr

/-- Whether an `ABr` is the exception outcome. -/
def ABr.isExc : ABr → Bool
  | .exc _ => true
  | _ => false

/-- The sibling loop of `alphabeta` (`gtp_connection.py` lines 450-477),
parameterised by the recursive call `rec` for the child frames.  Each
iteration decodes the move (raising out of the frame on failure), applies it,
recurses with negated and swapped bounds one ply deeper, undoes the move on
every path (the bare `except:` around `-int(...)` catches both the abort
sentinel's `int('a')` failure and any exception escaping the child, undoes,
and returns `'a'`), then performs the alpha update, the root winning-move
recording, the abort re-check and the beta cutoff in the source's order. -/
def abLoop (R : Rules) (rec : Conn → Int → Int → Nat → ABr × Conn) :
    List String → Conn → Int → Int → Nat → ABr × Conn
  | [], cn, alpha, _, _ => (.val alpha, cn)
  | m :: rest, cn, alpha, beta, d =>
    match decodePoint R cn.board.size m with
    | .error e => (.exc e, cn)
    | .ok point =>
      match bmove R cn.board point cn.board.to_play with
      | .error e => (.exc e, cn)
      | .ok (b1, _) =>
        match rec { cn with board := b1 } (-beta) (-alpha) (d + 1) with
        | (.abort, cn2) => (.abort, { cn2 with board := undo cn2.board point })
        | (.exc _, cn2) => (.abort, { cn2 with board := undo cn2.board point })
        | (.val v, cn2) =>
          let value : Int := -v
          let cn3 := { cn2 with board := undo cn2.board point }
          if value > alpha then
            if d == 0 && value ≥ 0 then
              (.abort, { cn3 with winMoves := cn3.winMoves ++ [m] })
            else if cn3.notdone || !cn3.winMoves.isEmpty then (.abort, cn3)
            else if value ≥ beta then (.val beta, cn3)
            else abLoop R rec rest cn3 value beta d
          else
            if cn3.notdone || !cn3.winMoves.isEmpty then (.abort, cn3)
            else if value ≥ beta then (.val beta, cn3)
            else abLoop R rec rest cn3 alpha beta d

/-- `GtpConnection.alphabeta(state, alpha, beta, d)` (lines 435-477).  The
clock oracle gives the elapsed `duration` of the n-th `time.process_time()`
sample; one sample is taken at every entry (line 437) before the abort check
(line 439) and the time-limit check (lines 442-445).  Fuel exhaustion stands
for Python's RecursionError (an exception escaping the frame). -/
def alphabeta (R : Rules) (clock : Nat → Int) :
    Nat → Conn → Int → Int → Nat → ABr × Conn
  | 0, cn, _, _, _ => (.exc "maximum recursion depth exceeded", cn)
  | fuel + 1, cn, alpha, beta, d =>
    let duration := clock cn.tick
    let cn := { cn with tick := cn.tick + 1 }
    if cn.notdone || !cn.winMoves.isEmpty then (.abort, cn)
    else if duration > cn.timelimit then (.abort, { cn with notdone := true })
    else
      match R.getWinner cn.board with
      | some _ => (.val (R.staticEval cn.board), cn)
      | none =>
        match R.genMoves cn.board cn.board.to_play with
        | .error e => (.exc e, cn)
        | .ok ms => abLoop R (alphabeta R clock fuel) (pySplitSpace ms) cn alpha beta d

/-- The reset of the solver scratch state at the top of `solve_cmd`
(lines 381-384): `self.winMoves = []`, `self.notdone = False`,
`self.starttime = time.process_time()` (modelled by restarting the sample
counter). -/
def solveReset (cn : Conn) : Conn :=
  { cn with winMoves := [], notdone := false, tick := 0 }

/-- The response formatting of `solve_cmd` (lines 389-400), emitted only when
`self.genCall` is unset: a first root winning move yields
`<to-play token> <move>`, otherwise `unknown` when `self.notdone` is set,
otherwise the opponent's color token. -/
def solveRespond (cn1 : Conn) : List String × Conn × Option String :=
  if cn1.genCall then ([], cn1, none)
  else if !cn1.winMoves.isEmpty then
    ([fmtRespond (colorToken cn1.board.to_play ++ " " ++ cn1.winMoves.head!)], cn1, none)
  else if cn1.notdone then ([fmtRespond "unknown"], cn1, none)
  else ([fmtRespond (colorToken (opponent cn1.board.to_play))], cn1, none)

/-- `GtpConnection.solve_cmd` (lines 379-400).  The handler result is the list
of emitted responses, the new connection state, and `some e` when an exception
with detail `e` escapes the handler (`solve_cmd` wraps nothing in `try`, so an
exception escaping the root `alphabeta` call propagates with no response). -/
def solveCmd (R : Rules) (clock : Nat → Int) (fuel : Nat) (cn : Conn) :
    List String × Conn × Option String :=
  match alphabeta R clock fuel (solveReset cn) (-100000) 100000 0 with
  | (.exc e, cn1) => ([], cn1, some e)
  | (.val _, cn1) => solveRespond cn1
  | (.abort, cn1) => solveRespond cn1

/-- `GtpConnection.legal_moves_cmd` (lines 262-279): decode the color, list
the legal moves and respond with them; any exception is caught and answered
with `self.respond('Error: {}'.format(str(e)))` — a success-framed message. -/
def legalMovesCmd (R : Rules) (a0 : String) (cn : Conn) :
    List String × Conn × Option String :=
  match R.colorToInt (lowerStr a0) with
  | .error e => ([fmtRespond ("Error: " ++ e)], cn, none)
  | .ok c =>
    match R.genMoves cn.board c with
    | .error e => ([fmtRespond ("Error: " ++ e)], cn, none)
    | .ok ms => ([fmtRespond ms], cn, none)

/-- `GtpConnection.play_cmd` (lines 281-308).  `board_color = args[0].lower()`
and `board_move = args[1]` are bound before anything can raise; every
exception inside the `try` is caught and answered with
`self.respond("illegal move: {} {} {}".format(board_color, board_move, str(e)))`
— a success-framed message.  A falsy `move_to_coord` result returns silently;
`if not self.board.move(move, color): return` likewise returns silently when
`move` reports an illegal move by returning `False` rather than raising. -/
def playCmd (R : Rules) (a0 a1 : String) (cn : Conn) :
    List String × Conn × Option String :=
  match R.colorToInt (lowerStr a0) with
  | .error e =>
    ([fmtRespond ("illegal move: " ++ lowerStr a0 ++ " " ++ a1 ++ " " ++ e)], cn, none)
  | .ok color =>
    match R.moveToCoord cn.board.size a1 with
    | .error e =>
      ([fmtRespond ("illegal move: " ++ lowerStr a0 ++ " " ++ a1 ++ " " ++ e)], cn, none)
    | .ok none => ([], cn, none)
    | .ok (some rc) =>
      match bmove R cn.board (R.coordToPoint cn.board.size rc) color with
      | .error e =>
        ([fmtRespond ("illegal move: " ++ lowerStr a0 ++ " " ++ a1 ++ " " ++ e)], cn, none)
      | .ok (b1, flag) =>
        if flag then ([fmtRespond ""], { cn with board := b1 }, none)
        else ([], { cn with board := b1 }, none)

/-- The move selection of `genmove_cmd` (lines 344-355): decode the first
recorded winning move when one exists, otherwise take a random legal move and
round-trip it through `_point_to_coord` / `format_point` / `move_to_coord` /
`_coord_to_point`. -/
def genmoveChoose (R : Rules) (cn : Conn) (color : Color) : Except String Nat :=
  if !cn.winMoves.isEmpty then
    decodePoint R cn.board.size cn.winMoves.head!
  else
    match R.randomMove cn.board color with
    | .error e => .error e
    | .ok none => .error "argument of type NoneType"
    | .ok (some q) =>
      decodePoint R cn.board.size (R.formatPoint (R.pointToCoord cn.board.size q))

/-- The state preparation of `genmove_cmd` before it calls `solve_cmd`
(lines 326 and 333-339): clear `notdone`, clear `winMoves`, set `genCall`, and
set `to_play` from the raw first argument (the comparison `args[0] == 'b'` is
case-sensitive and anything else selects WHITE). -/
def genmovePrep (a0 : String) (cn : Conn) : Conn :=
  { cn with notdone := false, winMoves := [], genCall := true, board := { cn.board with to_play := if a0 == "b" then Color.black else Color.white } }

/-- `GtpConnection.genmove_cmd` (lines 313-371).  The whole body sits in a
`try` whose handler answers `self.respond('Error: {}'.format(str(e)))`, so
every exception raised inside — including the `RuntimeError("Illegal move
given by engine")` raised right after the `Illegal move:` response when the
chosen move fails `board.check_legal` — is converted into an ordinary
success-framed response and never escapes the handler.  When `solve_cmd`
raises, the `self.genCall = False` at line 342 is skipped, so `genCall` stays
set in that branch. -/
def genmoveCmd (R : Rules) (clock : Nat → Int) (fuel : Nat) (a0 : String)
    (cn : Conn) : List String × Conn × Option String :=
  let cn := { cn with notdone := false }
  match R.colorToInt (lowerStr a0) with
  | .error e => ([fmtRespond ("Error: " ++ e)], cn, none)
  | .ok color =>
    match R.getWinner cn.board with
    | some _ => ([fmtRespond "resign"], cn, none)
    | none =>
      match solveCmd R clock fuel (genmovePrep a0 cn) with
      | (o, cn1, some e) => (o ++ [fmtRespond ("Error: " ++ e)], cn1, none)
      | (o, cn1, none) =>
        let cn2 := { cn1 with genCall := false }
        match genmoveChoose R cn2 color with
        | .error e => (o ++ [fmtRespond ("Error: " ++ e)], cn2, none)
        | .ok p =>
          if !R.checkLegal cn2.board p color then
            (o ++ [fmtRespond ("Illegal move: " ++
                     R.formatPoint (R.pointToCoord cn2.board.size p)),
                   fmtRespond "Error: Illegal move given by engine"], cn2, none)
          else
            match bmove R cn2.board p color with
            | .error e => (o ++ [fmtRespond ("Error: " ++ e)], cn2, none)
            | .ok (b1, _) =>
              (o ++ [fmtRespond (R.formatPoint (R.pointToCoord b1.size p))],
               { cn2 with board := b1 }, none)

/-- The `self.argmap` table built in `__init__` (lines 62-71): required
argument count and usage message per command. -/
def argmapLookup (name : String) : Option (Nat × String) :=
  if name == "boardsize" then some (1, "Usage: boardsize INT")
  else if name == "komi" then some (1, "Usage: komi FLOAT")
  else if name == "known_command" then some (1, "Usage: known_command CMD_NAME")
  else if name == "set_free_handicap" then some (1, "Usage: set_free_handicap MOVE (e.g. A4)")
  else if name == "genmove" then some (1, "Usage: genmove {w, b}")
  else if name == "play" then some (2, "Usage: play {b, w} MOVE")
  else if name == "legal_moves" then some (1, "Usage: legal_moves {w, b}")
  else if name == "timelimit" then some (1, "Usage: timelimit seconds (1 <= seconds <= 100)")
  else none

/-- The names registered in `self.commands` (lines 40-58). -/
def commandNames : List String :=
  ["protocol_version", "quit", "name", "boardsize", "showboard", "clear_board",
   "komi", "version", "known_command", "set_free_handicap", "genmove",
   "list_commands", "play", "final_score", "legal_moves", "timelimit", "solve"]

/-- Invocation of the bound handler (`self.commands[command_name](args)`).
Only the handlers the claims are about are modelled; the remaining commands
(board administration and introspection) mutate nothing the claims mention and
are modelled as producing no output.  An exception escaping a handler is
logged to the debug channel and re-raised by `get_cmd` (lines 122-127), so it
is reported unchanged in the third component. -/
def runCmd (R : Rules) (clock : Nat → Int) (fuel : Nat) (name : String)
    (args : List String) (cn : Conn) : List String × Conn × Option String :=
  if name == "play" then
    match args with
    | a0 :: a1 :: _ => playCmd R a0 a1 cn
    | _ => ([], cn, some "list index out of range")
  else if name == "legal_moves" then
    match args with
    | a0 :: _ => legalMovesCmd R a0 cn
    | _ => ([], cn, some "list index out of range")
  else if name == "genmove" then
    match args with
    | a0 :: _ => genmoveCmd R clock fuel a0 cn
    | _ => ([], cn, some "list index out of range")
  else if name == "solve" then solveCmd R clock fuel cn
  else ([], cn, none)

/-- The dispatch part of `get_cmd` after tokenisation (lines 113-131): the
special `play` arity check (`self.argmap["play"][0]` is `2`; with an empty
argument list, `args[0]` raises an uncaught IndexError), the generic
`arg_error` check with the command's usage message, the unknown-command
report, and handler invocation. -/
def dispatch (R : Rules) (clock : Nat → Int) (fuel : Nat) (name : String)
    (args : List String) (cn : Conn) : List String × Conn × Option String :=
  if name == "play" && args.length != 2 then
    match args with
    | [] => ([], cn, some "list index out of range")
    | a :: _ =>
      ([fmtRespond ("illegal move: " ++ a ++ " wrong number of arguments")], cn, none)
  else
    let invoke :=
      if commandNames.contains name then runCmd R clock fuel name args cn
      else ([fmtError "Unknown command"], cn, none)
    match argmapLookup name with
    | some (k, usage) =>
      if k > args.length then ([fmtError usage], cn, none) else invoke
    | none => invoke

/-- Python's `str.strip(' \r\t')` emptiness test characters. -/
def isSRT (c : Char) : Bool := c = ' ' || c = '\r' || c = '\t'

/-- Python's `str.strip(' \r\t')`: drop those characters from both ends. -/
def stripSRT (s : String) : String :=
  String.mk (((s.toList.dropWhile isSRT).reverse.dropWhile isSRT).reverse)

/-- `re.sub("^\d+", "", command).lstrip()`: drop the leading digit run, then
all leading whitespace. -/
def stripDigitPrefixLstrip (s : String) : String :=
  String.mk ((s.toList.dropWhile Char.isDigit).dropWhile Char.isWhitespace)

/-- Python's argument-free `str.split()`: tokens separated by whitespace runs,
with no empty tokens. -/
def wsTokens : List Char → List Char → List String
  | [], cur => if cur.isEmpty then [] else [String.mk cur.reverse]
  | c :: cs, cur =>
    if c.isWhitespace then
      if cur.isEmpty then wsTokens cs []
      else String.mk cur.reverse :: wsTokens cs []
    else wsTokens cs (c :: cur)

/-- Python's argument-free `str.split()` on a string (used at line 110). -/
def pySplit (s : String) : List String :=
  wsTokens s.toList []

/-- `GtpConnection.get_cmd` (lines 93-131): ignore effectively empty lines and
`#` comment lines, strip a leading digit run (a request id), tokenise, and
dispatch. -/
def getCmd (R : Rules) (clock : Nat → Int) (fuel : Nat) (line : String)
    (cn : Conn) : List String × Conn × Option String :=
  if (stripSRT line).toList.isEmpty then ([], cn, none)
  else if line.toList.head? = some '#' then ([], cn, none)
  else
    let line :=
      if (line.toList.head?.map Char.isDigit).getD false then
        stripDigitPrefixLstrip line
      else line
    match pySplit line with
    | [] => ([], cn, none)
    | name :: args => dispatch R clock fuel name args cn

/-- Modelled from the spec: the interface contract of the Rules component —
in a position the Board has not flagged terminal, the enumeration succeeds and
every enumerated move string decodes to a point that is a legal move for the
side to move on an empty cell ("A move is legal iff Board accepts it";
"every non-terminal position in this game family must have at least one legal
move, or winner detection must have already fired"). -/
def RulesOK (R : Rules) : Prop :=
  ∀ b : Bd, R.getWinner b = none →
    ∀ s, R.genMoves b b.to_play = .ok s →
      ∀ m ∈ pySplitSpace s,
        ∃ p, decodePoint R b.size m = .ok p ∧ R.legal b p b.to_play = true ∧
          b.grid[p]? = some Cell.empty

/-- The board after the side to move places a stone on point `p` (the mutation
performed by a legal `board.move(p, to_play)`). -/
def place (b : Bd) (p : Nat) : Bd :=
  { b with grid := b.grid.set p (b.to_play).cell, to_play := opponent b.to_play }

/-- A one-cell board whose single point is empty, black to move. -/
def bdE : Bd := { size := 1, grid := [Cell.empty], to_play := Color.black }

/-- A one-cell board whose single point holds a black stone, black to move. -/
def bdB : Bd := { size := 1, grid := [Cell.black], to_play := Color.black }

/-- A concrete Rules instance for witnesses: a one-point game.  The game is
over as soon as the point is occupied (and the winner is then the opponent of
the side to move, matching a no-legal-move loss); the single legal move is
the string `a`, decoding to point `0`. -/
def TR : Rules :=
  { getWinner := fun b => match b.grid[0]? with
      | some Cell.empty => none
      | _ => some (opponent b.to_play),
    staticEval := fun _ => -1,
    genMoves := fun _ _ => .ok "a",
    moveToCoord := fun _ m => if m == "a" then .ok (some (0, 0)) else .error "wrong coordinate",
    coordToPoint := fun _ _ => 0,
    pointToCoord := fun _ _ => (0, 0),
    formatPoint := fun _ => "a",
    colorToInt := fun s =>
      if s == "b" then .ok Color.black
      else if s == "w" then .ok Color.white
      else .error "wrong color",
    randomMove := fun _ _ => .ok (some 0),
    legal := fun b p _ => b.grid[p]? == some Cell.empty,
    illegalDetail := fun _ _ _ => "occupied",
    checkLegal := fun b p _ => b.grid[p]? == some Cell.empty }

/-- `TR` with a `check_legal` that rejects everything: the engine-integrity
re-validation in `genmove` always fails. -/
def TR5 : Rules := { TR with checkLegal := fun _ _ _ => false }

/-- `TR` with an empty legal-move enumeration in every position. -/
def TR9 : Rules := { TR with genMoves := fun _ _ => .ok "" }

/-- A connection state over the empty one-point board. -/
def cn0 : Conn :=
  { board := bdE, timelimit := 1, notdone := false, winMoves := [],
    genCall := false, tick := 0 }

/-- A connection state over the occupied one-point board. -/
def cnB : Conn := { cn0 with board := bdB }

/-- A connection state with a root winning move already recorded. -/
def cnW : Conn := { cn0 with winMoves := ["a"] }

/-- The one-cell board after black plays its point: occupied, white to move. -/
def bdBW : Bd := { size := 1, grid := [Cell.black], to_play := Color.white }

/-- A child-call stub that always raises, for exercising the parent frame's
exception-to-abort conversion. -/
def recExc : Conn → Int → Int → Nat → ABr × Conn := fun c _ _ _ => (.exc "boom", c)

/-- A clock oracle that always reports elapsed time 0. -/
def clk0 : Nat → Int := fun _ => 0

/-- A clock oracle that always reports elapsed time 5 (over the limit 1). -/
def clk5 : Nat → Int := fun _ => 5

theorem opponent_opponent (c : Color) : opponent (opponent c) = c := by
  cases c <;> rfl

theorem bmove_to_play_ok (R : Rules) (b : Bd) (p : Nat)
    (h : R.legal b p b.to_play = true) :
    bmove R b p b.to_play = .ok (place b p, true) := by
  simp [bmove, place, h]

theorem set_self_of_getElem? :
    ∀ (l : List Cell) (p : Nat) (a : Cell), l[p]? = some a → l.set p a = l
  | [], p, a, h => by simp at h
  | x :: xs, 0, a, h => by
    simp only [List.getElem?_cons_zero, Option.some.injEq] at h
    simp [h]
  | x :: xs, p + 1, a, h => by
    simp only [List.getElem?_cons_succ] at h
    simp [set_self_of_getElem? xs p a h]

/-- The board placed on by a legal move of the side to move, then undone, is
the original board: the point is restored to EMPTY (it was empty before the
move) and `to_play` is flipped back. -/
theorem undo_place (b : Bd) (p : Nat) (h : b.grid[p]? = some Cell.empty) :
    undo (place b p) p = b := by
  simp only [undo, place, List.set_set, opponent_opponent]
  cases b with
  | mk size grid to_play => simp [set_self_of_getElem? grid p Cell.empty h]

/-- One loop of `abLoop` leaves the Board exactly as it found it, for every
outcome, provided the child call does so and the moves to iterate decode to
legal moves on empty points of the current position. -/
theorem abLoop_board (R : Rules) (rec : Conn → Int → Int → Nat → ABr × Conn)
    (hrec : ∀ cn alpha beta d, ((rec cn alpha beta d).2).board = cn.board) :
    ∀ (ms : List String) (cn : Conn) (alpha beta : Int) (d : Nat),
      (∀ m ∈ ms, ∃ p, decodePoint R cn.board.size m = .ok p ∧
          R.legal cn.board p cn.board.to_play = true ∧
          cn.board.grid[p]? = some Cell.empty) →
      ((abLoop R rec ms cn alpha beta d).2).board = cn.board := by
  intro ms
  induction ms with
  | nil => intro cn alpha beta d _; rfl
  | cons m rest ih =>
    intro cn alpha beta d hm
    obtain ⟨p, hdec, hleg, hemp⟩ := hm m (List.mem_cons_self m rest)
    have hbm : bmove R cn.board p cn.board.to_play = .ok (place cn.board p, true) :=
      bmove_to_play_ok R cn.board p hleg
    have hundo : undo (place cn.board p) p = cn.board := undo_place cn.board p hemp
    simp only [abLoop, hdec, hbm]
    rcases hr : rec { cn with board := place cn.board p } (-beta) (-alpha) (d + 1)
      with ⟨r, cn2⟩
    have hcn2 : cn2.board = place cn.board p := by
      have := hrec { cn with board := place cn.board p } (-beta) (-alpha) (d + 1)
      rw [hr] at this
      exact this
    have hu2 : undo cn2.board p = cn.board := by rw [hcn2]; exact hundo
    cases r with
    | abort => simp [hr, hu2]
    | exc e => simp [hr, hu2]
    | val v =>
      have hrest : ∀ m' ∈ rest, ∃ p', decodePoint R cn.board.size m' = .ok p' ∧
          R.legal cn.board p' cn.board.to_play = true ∧
          cn.board.grid[p']? = some Cell.empty :=
        fun m' hm' => hm m' (List.mem_cons_of_mem m hm')
      have hihv : ∀ a : Int,
          ((abLoop R rec rest { cn2 with board := cn.board } a beta d).2).board
            = cn.board :=
        fun a => ih { cn2 with board := cn.board } a beta d hrest
      simp only [hr, hu2]
      repeat' split
      all_goals first | rfl | exact hihv _

/-- The loop never touches the `genCall` flag, provided the child call does
not. -/
theorem abLoop_genCall (R : Rules) (rec : Conn → Int → Int → Nat → ABr × Conn)
    (hrec : ∀ cn alpha beta d, ((rec cn alpha beta d).2).genCall = cn.genCall) :
    ∀ (ms : List String) (cn : Conn) (alpha beta : Int) (d : Nat),
      ((abLoop R rec ms cn alpha beta d).2).genCall = cn.genCall := by
  intro ms
  induction ms with
  | nil => intro cn alpha beta d; rfl
  | cons m rest ih =>
    intro cn alpha beta d
    rcases hdec : decodePoint R cn.board.size m with e | p
    · simp [abLoop, hdec]
    · rcases hbm : bmove R cn.board p cn.board.to_play with e | bp
      · simp [abLoop, hdec, hbm]
      · rcases bp with ⟨b1, flag⟩
        rcases hr : rec { cn with board := b1 } (-beta) (-alpha) (d + 1) with ⟨r, cn2⟩
        have hg2 : cn2.genCall = cn.genCall := by
          have := hrec { cn with board := b1 } (-beta) (-alpha) (d + 1)
          rw [hr] at this
          exact this
        cases r with
        | abort => simp [abLoop, hdec, hbm, hr, hg2]
        | exc e => simp [abLoop, hdec, hbm, hr, hg2]
        | val v =>
          simp only [abLoop, hdec, hbm, hr]
          repeat' split
          all_goals first | exact hg2 | exact (ih _ _ _ _).trans hg2

/-- The search never touches the `genCall` flag. -/
theorem alphabeta_genCall (R : Rules) (clock : Nat → Int) :
    ∀ (fuel : Nat) (cn : Conn) (alpha beta : Int) (d : Nat),
      ((alphabeta R clock fuel cn alpha beta d).2).genCall = cn.genCall := by
  intro fuel
  induction fuel with
  | zero => intro cn alpha beta d; rfl
  | succ fuel ih =>
    intro cn alpha beta d
    simp only [alphabeta]
    by_cases h1 : (cn.notdone || !cn.winMoves.isEmpty) = true
    · simp [h1]
    · simp only [h1, if_false, Bool.false_eq_true]
      by_cases h2 : clock cn.tick > cn.timelimit
      · simp [h2]
      · simp only [if_neg h2]
        rcases hw : R.getWinner cn.board with _ | w
        · rcases hg : R.genMoves cn.board cn.board.to_play with e | ms
          · simp
          · simp only []
            exact abLoop_genCall R (alphabeta R clock fuel) ih (pySplitSpace ms)
              { cn with tick := cn.tick + 1 } alpha beta d
        · simp

/-- The whole search leaves the Board exactly as it found it (the
mutate-then-undo discipline), for every outcome, under the Rules interface
contract. -/
theorem alphabeta_board (R : Rules) (clock : Nat → Int) (hOK : RulesOK R) :
    ∀ (fuel : Nat) (cn : Conn) (alpha beta : Int) (d : Nat),
      ((alphabeta R clock fuel cn alpha beta d).2).board = cn.board := by
  intro fuel
  induction fuel with
  | zero => intro cn alpha beta d; rfl
  | succ fuel ih =>
    intro cn alpha beta d
    simp only [alphabeta]
    by_cases h1 : (cn.notdone || !cn.winMoves.isEmpty) = true
    · simp [h1]
    · simp only [h1, if_false, Bool.false_eq_true]
      by_cases h2 : clock cn.tick > cn.timelimit
      · simp [h2]
      · simp only [if_neg h2]
        rcases hw : R.getWinner cn.board with _ | w
        · rcases hg : R.genMoves cn.board cn.board.to_play with e | ms
          · simp
          · simp only []
            exact abLoop_board R (alphabeta R clock fuel) ih (pySplitSpace ms)
              { cn with tick := cn.tick + 1 } alpha beta d
              (hOK cn.board hw ms hg)
        · simp

/-- The concrete instance `TR` satisfies the Rules interface contract. -/
theorem rulesOK_TR : RulesOK TR := by
  intro b hw s hs m hm
  have hs' : s = "a" := by
    have h0 : TR.genMoves b b.to_play = .ok "a" := rfl
    rw [h0] at hs
    exact ((Except.ok.injEq _ _).mp hs).symm
  subst hs'
  have hsplit : pySplitSpace "a" = ["a"] := by decide
  rw [hsplit] at hm
  have hm' : m = "a" := by simpa using hm
  subst hm'
  have hempty : b.grid[0]? = some Cell.empty := by
    revert hw
    show TR.getWinner b = none → _
    rcases hb : b.grid[0]? with _ | c
    · simp [TR, hb]
    · cases c <;> simp [TR, hb]
  refine ⟨0, ?_, ?_, hempty⟩
  · rfl
  · show (b.grid[0]? == some Cell.empty) = true
    simp [hempty]

/-- C3: every frame of the search that applies a move restores the played
point to EMPTY and reverts `to_play` before returning, on every return path
(normal iteration, beta cutoff, root winning-move abort, propagated abort and
even a propagated exception), so the Board after any `alphabeta` call — and
hence after every recursive child call a frame makes for each of its siblings
— equals the Board before it, under the Rules interface contract. -/
theorem claim_C3 (R : Rules) (clock : Nat → Int) (fuel : Nat) (cn : Conn)
    (alpha beta : Int) (d : Nat) (hOK : RulesOK R) :
    ((alphabeta R clock fuel cn alpha beta d).2).board = cn.board :=
  alphabeta_board R clock hOK fuel cn alpha beta d

theorem claim_C3_witness :
    RulesOK TR ∧
      ((alphabeta TR clk0 5 cn0 (-100000) 100000 0).2).board = cn0.board :=
  ⟨rulesOK_TR, claim_C3 TR clk0 5 cn0 (-100000) 100000 0 rulesOK_TR⟩

/-- C4: (1) a frame entered with the time-exceeded flag set or a root winning
move already recorded returns the abort sentinel at once: the Board, the
winning-move list and the flag are all unchanged (only the clock-sample
counter advances — the sample taken at entry is never used for a new timeout
decision, whatever elapsed time it reports) and no move is enumerated or
applied; (2) a search entered with the flag set leaves it set (nothing in the
search clears it); (3) `solve_cmd` behaves identically whatever scratch state
(`notdone`, `winMoves`, sample counter) was left behind, because it resets all
of it before searching. -/
theorem claim_C4 :
    (∀ (R : Rules) (clock : Nat → Int) (fuel : Nat) (cn : Conn)
        (alpha beta : Int) (d : Nat),
        cn.notdone = true ∨ cn.winMoves ≠ [] →
        alphabeta R clock (fuel + 1) cn alpha beta d =
          (.abort, { cn with tick := cn.tick + 1 })) ∧
    (∀ (R : Rules) (clock : Nat → Int) (fuel : Nat) (cn : Conn)
        (alpha beta : Int) (d : Nat),
        cn.notdone = true →
        ((alphabeta R clock fuel cn alpha beta d).2).notdone = true) ∧
    (∀ (R : Rules) (clock : Nat → Int) (fuel : Nat) (cn : Conn)
        (x : Bool) (w : List String) (t : Nat),
        solveCmd R clock fuel { cn with notdone := x, winMoves := w, tick := t } =
          solveCmd R clock fuel cn) := by
  have hcond : ∀ cn : Conn, cn.notdone = true ∨ cn.winMoves ≠ [] →
      (cn.notdone || !cn.winMoves.isEmpty) = true := by
    intro cn h
    rcases h with h | h
    · simp [h]
    · rcases hl : cn.winMoves with _ | ⟨a, l⟩
      · exact absurd hl h
      · simp [hl]
  refine ⟨?_, ?_, ?_⟩
  · intro R clock fuel cn alpha beta d h
    simp [alphabeta, hcond cn h]
  · intro R clock fuel cn alpha beta d h
    cases fuel with
    | zero => simpa [alphabeta] using h
    | succ fuel => simp [alphabeta, hcond cn (Or.inl h), h]
  · intro R clock fuel cn x w t
    rfl

theorem claim_C4_witness :
    (cnW.notdone = true ∨ cnW.winMoves ≠ []) ∧
      alphabeta TR clk5 4 cnW (-100000) 100000 0 = (.abort, { cnW with tick := 1 }) ∧
      ((alphabeta TR clk0 2 { cn0 with notdone := true } (-100000) 100000 0).2).notdone
        = true ∧
      solveCmd TR clk5 3 { cn0 with notdone := true, winMoves := ["a"], tick := 7 } =
        solveCmd TR clk5 3 cn0 := by
  refine ⟨Or.inr (by decide), ?_, ?_, ?_⟩
  · exact claim_C4.1 TR clk5 3 cnW (-100000) 100000 0 (Or.inr (by decide))
  · exact claim_C4.2.1 TR clk0 2 { cn0 with notdone := true } (-100000) 100000 0 rfl
  · exact claim_C4.2.2 TR clk5 3 cn0 true ["a"] 7

/-- C2: (1) a frame entered with clean scratch state whose clock sample
exceeds the configured limit sets the time-exceeded flag and returns the
abort sentinel without touching the Board or recording any move; (2) whenever
the search ends (without raising) with the flag set and no root winning move
recorded, a non-generation `solve` responds exactly `unknown` — never a win
(color and move) and never a loss (opponent color). -/
theorem claim_C2 :
    (∀ (R : Rules) (clock : Nat → Int) (fuel : Nat) (cn : Conn)
        (alpha beta : Int) (d : Nat),
        cn.notdone = false → cn.winMoves = [] → clock cn.tick > cn.timelimit →
        alphabeta R clock (fuel + 1) cn alpha beta d =
          (.abort, { cn with notdone := true, tick := cn.tick + 1 })) ∧
    (∀ (R : Rules) (clock : Nat → Int) (fuel : Nat) (cn : Conn)
        (r : ABr) (cn1 : Conn),
        alphabeta R clock fuel (solveReset cn) (-100000) 100000 0 = (r, cn1) →
        r.isExc = false → cn1.genCall = false → cn1.winMoves = [] →
        cn1.notdone = true →
        solveCmd R clock fuel cn = ([fmtRespond "unknown"], cn1, none)) := by
  constructor
  · intro R clock fuel cn alpha beta d h1 h2 h3
    simp [alphabeta, h1, h2, h3]
  · intro R clock fuel cn r cn1 hrun hexc hg1 hw1 hn1
    cases r with
    | exc e => simp [ABr.isExc] at hexc
    | val v => simp [solveCmd, hrun, solveRespond, hg1, hw1, hn1]
    | abort => simp [solveCmd, hrun, solveRespond, hg1, hw1, hn1]

theorem claim_C2_witness :
    (alphabeta TR clk5 1 cn0 (-100000) 100000 0 =
        (.abort, { cn0 with notdone := true, tick := 1 })) ∧
      solveCmd TR clk5 3 cn0 =
        ([fmtRespond "unknown"], { cn0 with notdone := true, tick := 1 }, none) := by
  constructor
  · exact claim_C2.1 TR clk5 0 cn0 (-100000) 100000 0 rfl rfl (by decide)
  · exact claim_C2.2 TR clk5 3 cn0 .abort { cn0 with notdone := true, tick := 1 }
      (by decide) rfl rfl rfl rfl

/-- C1: in a non-generation invocation, when the root search returns (does
not raise), `solve_cmd` emits exactly one response, decided by the solver's
final scratch state: the side-to-move token and the first recorded winning
move when `winMoves` is non-empty; otherwise `unknown` when the time-exceeded
flag is set; otherwise the opponent's color token alone. -/
theorem claim_C1 (R : Rules) (clock : Nat → Int) (fuel : Nat) (cn : Conn)
    (r : ABr) (cn1 : Conn) (hOK : RulesOK R)
    (hrun : alphabeta R clock fuel (solveReset cn) (-100000) 100000 0 = (r, cn1))
    (hexc : r.isExc = false) (hgen : cn.genCall = false) :
    solveCmd R clock fuel cn =
      ([fmtRespond (if !cn1.winMoves.isEmpty then
            colorToken cn.board.to_play ++ " " ++ cn1.winMoves.head!
          else if cn1.notdone then "unknown"
          else colorToken (opponent cn.board.to_play))], cn1, none) := by
  have hb1 : cn1.board = cn.board := by
    have h := alphabeta_board R clock hOK fuel (solveReset cn) (-100000) 100000 0
    rw [hrun] at h
    exact h
  have hg1 : cn1.genCall = false := by
    have h := alphabeta_genCall R clock fuel (solveReset cn) (-100000) 100000 0
    rw [hrun] at h
    rw [h]
    exact hgen
  have hresp : solveRespond cn1 =
      ([fmtRespond (if !cn1.winMoves.isEmpty then
            colorToken cn.board.to_play ++ " " ++ cn1.winMoves.head!
          else if cn1.notdone then "unknown"
          else colorToken (opponent cn.board.to_play))], cn1, none) := by
    rcases hwm : cn1.winMoves with _ | ⟨w0, ws⟩ <;> cases hnd : cn1.notdone <;>
      simp [solveRespond, hg1, hb1, hwm, hnd]
  cases r with
  | exc e => simp [ABr.isExc] at hexc
  | val v => simpa [solveCmd, hrun] using hresp
  | abort => simpa [solveCmd, hrun] using hresp

theorem claim_C1_witness :
    RulesOK TR ∧
      solveCmd TR clk0 5 cn0 =
        ([fmtRespond "b a"], { cn0 with winMoves := ["a"], tick := 2 }, none) := by
  refine ⟨rulesOK_TR, ?_⟩
  have h := claim_C1 TR clk0 5 cn0 .abort { cn0 with winMoves := ["a"], tick := 2 }
    rulesOK_TR (by decide) rfl rfl
  exact h.trans (by decide)

/-- C8: when the Board already reports a winner at the moment `solve` is
invoked (and, per the Board's winner semantics, that winner is the opponent of
the side to move), the search returns the static evaluation from the root
frame without recording a winning move or setting the time-exceeded flag, so
a non-generation `solve` responds with exactly that winner's color token —
never `unknown`. -/
theorem claim_C8 (R : Rules) (clock : Nat → Int) (fuel : Nat) (cn : Conn)
    (w : Color) (hw : R.getWinner cn.board = some w)
    (hside : w = opponent cn.board.to_play) (hgen : cn.genCall = false)
    (hclk : clock 0 ≤ cn.timelimit) :
    solveCmd R clock (fuel + 1) cn =
      ([fmtRespond (colorToken w)], { solveReset cn with tick := 1 }, none) ∧
      colorToken w ≠ "unknown" := by
  constructor
  · have hrun : alphabeta R clock (fuel + 1) (solveReset cn) (-100000) 100000 0 =
        (.val (R.staticEval cn.board), { solveReset cn with tick := 1 }) := by
      simp [alphabeta, solveReset, hw, not_lt.mpr hclk]
    rw [hside]
    simp only [solveCmd, hrun]
    simp [solveRespond, solveReset, hgen]
  · cases w <;> decide

theorem claim_C8_witness :
    TR.getWinner cnB.board = some Color.white ∧
      solveCmd TR clk0 1 cnB =
        ([fmtRespond "w"], { solveReset cnB with tick := 1 }, none) := by
  refine ⟨rfl, ?_⟩
  exact (claim_C8 TR clk0 0 cnB Color.white rfl rfl rfl (by decide)).1

/-- C10: `legal_moves` always answers with exactly one success-framed
response and never propagates an exception to the dispatcher loop: when
decoding the color token or enumerating the legal moves raises, the response
is the success-framed `= Error: <detail>` (never a `?`-framed failure); on
success it is the move list. -/
theorem claim_C10 (R : Rules) (a0 : String) (cn : Conn) :
    (∃ msg, legalMovesCmd R a0 cn = ([fmtRespond msg], cn, none)) ∧
    (∀ e, R.colorToInt (lowerStr a0) = .error e →
      legalMovesCmd R a0 cn = ([fmtRespond ("Error: " ++ e)], cn, none)) ∧
    (∀ c e, R.colorToInt (lowerStr a0) = .ok c → R.genMoves cn.board c = .error e →
      legalMovesCmd R a0 cn = ([fmtRespond ("Error: " ++ e)], cn, none)) := by
  refine ⟨?_, ?_, ?_⟩
  · rcases h1 : R.colorToInt (lowerStr a0) with e | c
    · exact ⟨"Error: " ++ e, by simp [legalMovesCmd, h1]⟩
    · rcases h2 : R.genMoves cn.board c with e | ms
      · exact ⟨"Error: " ++ e, by simp [legalMovesCmd, h1, h2]⟩
      · exact ⟨ms, by simp [legalMovesCmd, h1, h2]⟩
  · intro e h1
    simp [legalMovesCmd, h1]
  · intro c e h1 h2
    simp [legalMovesCmd, h1, h2]

theorem claim_C10_witness :
    TR.colorToInt (lowerStr "x") = .error "wrong color" ∧
      legalMovesCmd TR "x" cn0 = ([fmtRespond "Error: wrong color"], cn0, none) :=
  ⟨rfl, (claim_C10 TR "x" cn0).2.1 "wrong color" rfl⟩

/-- C6 counterexample: on the two-argument line `play b a` over the occupied
one-point board, the Board rejects the move, and the dispatcher answers with
the success-framed `= illegal move: b a occupied`, which differs from the
`?`-framed response the claim states. -/
theorem claim_C6_counterexample :
    getCmd TR clk0 1 "play b a" cnB =
      ([fmtRespond "illegal move: b a occupied"], cnB, none) ∧
      fmtRespond "illegal move: b a occupied" ≠
        fmtError "illegal move: b a occupied" :=
  ⟨by decide, by decide⟩

/-- C6 (amended): a two-argument `play` whose move the Board rejects is
answered with the single success-framed message
`= illegal move: <color> <move> <detail>` (the handler catches the Board's
exception and reports it through `respond`, not `error`); the position is
left unchanged and nothing propagates, so processing continues with the next
line; a move the Board accepts is answered with the empty success response. -/
theorem claim_C6_amended (R : Rules) (a0 a1 : String) (cn : Conn) (c : Color)
    (rc : Nat × Nat) (hcol : R.colorToInt (lowerStr a0) = .ok c)
    (hcoord : R.moveToCoord cn.board.size a1 = .ok (some rc)) :
    (∀ e, bmove R cn.board (R.coordToPoint cn.board.size rc) c = .error e →
      playCmd R a0 a1 cn =
        ([fmtRespond ("illegal move: " ++ lowerStr a0 ++ " " ++ a1 ++ " " ++ e)],
         cn, none)) ∧
    (∀ b1, bmove R cn.board (R.coordToPoint cn.board.size rc) c = .ok (b1, true) →
      playCmd R a0 a1 cn = ([fmtRespond ""], { cn with board := b1 }, none)) := by
  constructor
  · intro e hb
    simp [playCmd, hcol, hcoord, hb]
  · intro b1 hb
    simp [playCmd, hcol, hcoord, hb]

theorem claim_C6_witness :
    bmove TR cnB.board 0 Color.black = .error "occupied" ∧
      playCmd TR "b" "a" cnB =
        ([fmtRespond "illegal move: b a occupied"], cnB, none) ∧
      playCmd TR "b" "a" cn0 = ([fmtRespond ""], { cn0 with board := bdBW }, none) := by
  refine ⟨rfl, ?_, ?_⟩
  · exact (claim_C6_amended TR "b" "a" cnB Color.black (0, 0) rfl rfl).1 "occupied" rfl
  · exact (claim_C6_amended TR "b" "a" cn0 Color.black (0, 0) rfl rfl).2 bdBW rfl

/-- C7 counterexample: the one-argument line `play b` is answered with the
success-framed `= illegal move: b wrong number of arguments`, which differs
from the `?`-framed response the claim states. -/
theorem claim_C7_counterexample :
    getCmd TR clk0 1 "play b" cn0 =
      ([fmtRespond "illegal move: b wrong number of arguments"], cn0, none) ∧
      fmtRespond "illegal move: b wrong number of arguments" ≠
        fmtError "illegal move: b wrong number of arguments" :=
  ⟨by decide, by decide⟩

/-- C7 (amended): a `play` line whose argument count differs from 2 but has
at least one argument is answered — before any handler runs, leaving the
session state untouched — with the single success-framed message
`= illegal move: <first-arg> wrong number of arguments` (the quirk reports
through `respond`, not `error`); with zero arguments the quirk's `args[0]`
raises an IndexError that escapes `get_cmd` uncaught. -/
theorem claim_C7_amended :
    (∀ (R : Rules) (clock : Nat → Int) (fuel : Nat) (a : String)
        (rest : List String) (cn : Conn), (a :: rest).length ≠ 2 →
        dispatch R clock fuel "play" (a :: rest) cn =
          ([fmtRespond ("illegal move: " ++ a ++ " wrong number of arguments")],
           cn, none)) ∧
    (∀ (R : Rules) (clock : Nat → Int) (fuel : Nat) (cn : Conn),
        dispatch R clock fuel "play" [] cn =
          ([], cn, some "list index out of range")) := by
  constructor
  · intro R clock fuel a rest cn h
    have hb : ("play" == "play" && ((a :: rest).length != 2)) = true := by simpa using h
    simp only [dispatch, hb]
    simp
  · intro R clock fuel cn
    rfl

theorem claim_C7_witness :
    ["b"].length ≠ 2 ∧
      dispatch TR clk0 1 "play" ["b"] cn0 =
        ([fmtRespond "illegal move: b wrong number of arguments"], cn0, none) :=
  ⟨by decide, claim_C7_amended.1 TR clk0 1 "b" [] cn0 (by decide)⟩

/-- C5 counterexample: on a `genmove` whose chosen move fails the legality
re-check, the handler emits two success-framed responses — `= Illegal move: a`
and then, because its own blanket `except` catches the raised RuntimeError,
`= Error: Illegal move given by engine` — and nothing propagates out of the
handler (third component `none`): the `?`-framed report and the escalation
the claim states do not happen. -/
theorem claim_C5_counterexample :
    genmoveCmd TR5 clk5 3 "b" cn0 =
      ([fmtRespond "Illegal move: a",
        fmtRespond "Error: Illegal move given by engine"],
       { cn0 with notdone := true, tick := 1 }, none) ∧
      (fmtRespond "Illegal move: a").toList.head? = some '=' ∧
      (fmtRespond "Error: Illegal move given by engine").toList.head? = some '=' :=
  ⟨by decide, by decide, by decide⟩

/-- C5 (amended): when the move chosen by `genmove` (solver-provided or
random fallback) fails the Board's legality re-check, the handler reports the
failure with the success-framed `= Illegal move: <move>` response and raises
a RuntimeError that its own blanket `except Exception` immediately catches and
converts into the ordinary success-framed response
`= Error: Illegal move given by engine`; the failure does not propagate out of
the genmove handler. -/
theorem claim_C5_amended (R : Rules) (clock : Nat → Int) (fuel : Nat)
    (a0 : String) (cn : Conn) (color : Color) (o : List String) (cn1 : Conn)
    (p : Nat) (hcol : R.colorToInt (lowerStr a0) = .ok color)
    (hwin : R.getWinner cn.board = none)
    (hsolve : solveCmd R clock fuel (genmovePrep a0 cn) = (o, cn1, none))
    (hchoose : genmoveChoose R { cn1 with genCall := false } color = .ok p)
    (hbad : R.checkLegal cn1.board p color = false) :
    genmoveCmd R clock fuel a0 cn =
      (o ++ [fmtRespond ("Illegal move: " ++
          R.formatPoint (R.pointToCoord cn1.board.size p)),
        fmtRespond "Error: Illegal move given by engine"],
       { cn1 with genCall := false }, none) := by
  simp [genmovePrep] at hsolve
  simp [genmoveCmd, genmovePrep, hcol, hwin, hsolve, hchoose, hbad]

theorem claim_C5_witness :
    TR5.checkLegal cn0.board 0 Color.black = false ∧
      genmoveCmd TR5 clk5 3 "b" cn0 =
        ([fmtRespond "Illegal move: a",
          fmtRespond "Error: Illegal move given by engine"],
         { cn0 with notdone := true, tick := 1 }, none) := by
  refine ⟨rfl, ?_⟩
  have h := claim_C5_amended TR5 clk5 3 "b" cn0 Color.black []
    { cn0 with notdone := true, genCall := true, tick := 1 } 0
    rfl rfl (by decide) rfl rfl
  exact h.trans (by decide)

/-- C9 counterexample: in a position with no winner and an empty legal-move
enumeration, the search frame does not treat the position as terminal: the
loop iterates over the singleton list containing the empty move string, whose
decoding raises, so the frame returns the exception outcome (an error raised
out of the search frame), and at the root that error propagates out of
`solve_cmd`. -/
theorem claim_C9_counterexample :
    alphabeta TR9 clk0 2 cn0 (-100000) 100000 0 =
      (.exc "wrong coordinate", { cn0 with tick := 1 }) ∧
      solveCmd TR9 clk0 2 cn0 =
        ([], { cn0 with tick := 1 }, some "wrong coordinate") :=
  ⟨by decide, by decide⟩

/-- C9 (amended): a frame that reaches an empty enumeration in a position the
Board has not flagged terminal iterates over `[""]` and raises the move
decoder's error out of the search frame; a parent frame's bare `except`
converts the escaped error into the abort sentinel after undoing its own move;
at the root the error propagates out of `solve_cmd` with no response. -/
theorem claim_C9_amended :
    (∀ (R : Rules) (clock : Nat → Int) (fuel : Nat) (cn : Conn)
        (alpha beta : Int) (d : Nat) (e : String),
        cn.notdone = false → cn.winMoves = [] →
        clock cn.tick ≤ cn.timelimit → R.getWinner cn.board = none →
        R.genMoves cn.board cn.board.to_play = .ok "" →
        R.moveToCoord cn.board.size "" = .error e →
        alphabeta R clock (fuel + 1) cn alpha beta d =
          (.exc e, { cn with tick := cn.tick + 1 })) ∧
    (∀ (R : Rules) (rec : Conn → Int → Int → Nat → ABr × Conn) (m : String)
        (rest : List String) (cn cn2 : Conn) (alpha beta : Int) (d : Nat)
        (p : Nat) (b1 : Bd) (f : Bool) (e : String),
        decodePoint R cn.board.size m = .ok p →
        bmove R cn.board p cn.board.to_play = .ok (b1, f) →
        rec { cn with board := b1 } (-beta) (-alpha) (d + 1) = (.exc e, cn2) →
        abLoop R rec (m :: rest) cn alpha beta d =
          (.abort, { cn2 with board := undo cn2.board p })) ∧
    (∀ (R : Rules) (clock : Nat → Int) (fuel : Nat) (cn cn1 : Conn) (e : String),
        alphabeta R clock fuel (solveReset cn) (-100000) 100000 0 = (.exc e, cn1) →
        solveCmd R clock fuel cn = ([], cn1, some e)) := by
  refine ⟨?_, ?_, ?_⟩
  · intro R clock fuel cn alpha beta d e h1 h2 h3 h4 h5 h6
    have hsplit : pySplitSpace "" = [""] := by decide
    simp [alphabeta, h1, h2, not_lt.mpr h3, h4, h5, hsplit, abLoop, decodePoint, h6]
  · intro R rec m rest cn cn2 alpha beta d p b1 f e hdec hbm hr
    simp [abLoop, hdec, hbm, hr]
  · intro R clock fuel cn cn1 e hrun
    simp [solveCmd, hrun]

theorem claim_C9_witness :
    TR9.genMoves cn0.board cn0.board.to_play = .ok "" ∧
      alphabeta TR9 clk0 2 cn0 (-100000) 100000 0 =
        (.exc "wrong coordinate", { cn0 with tick := 1 }) ∧
      abLoop TR recExc ["a"] cn0 (-100000) 100000 0 = (.abort, cn0) ∧
      solveCmd TR9 clk0 2 cn0 =
        ([], { cn0 with tick := 1 }, some "wrong coordinate") := by
  refine ⟨rfl, ?_, ?_, ?_⟩
  · exact claim_C9_amended.1 TR9 clk0 1 cn0 (-100000) 100000 0 "wrong coordinate"
      rfl rfl (by decide) rfl rfl rfl
  · have h := claim_C9_amended.2.1 TR recExc "a" [] cn0 { cn0 with board := bdBW }
      (-100000) 100000 0 0 bdBW true "boom" rfl rfl rfl
    exact h.trans (by decide)
  · exact claim_C9_amended.2.2 TR9 clk0 2 cn0 { cn0 with tick := 1 }
      "wrong coordinate" (by decide)

end NoGo
